import Mathlib

/-!
Shallow embedding of `pandas_dtype_efficiency.py` (class `DataFrameChecker`).

A pandas `DataFrame` is modelled as an insertion-ordered list of named,
typed columns.  Python dictionaries are modelled as insertion-ordered
association lists (`dictGet` / `dictInsert` / `dictUpdate` mirror `d[k]`,
`d[k] = v` and `d.update(u)`).  Exceptions are modelled with `Except`
over a `PyError` value that records the Python exception class and its
message.  IEEE floating point payloads are carried as rationals and the
value-level effect of a float downcast (rounding) is below this level of
abstraction; only structural/type effects of casts are modelled.
-/

set_option autoImplicit false

namespace PandasDtypeEfficiency

/-- The numpy/pandas dtypes that the program inspects or produces. -/
inductive Dtype where
  | int8
  | int16
  | int32
  | int64
  | float16
  | float32
  | float64
  | object
  | boolean
  | category
  deriving DecidableEq, Repr

/-- A scalar cell value of a column. -/
inductive Value where
  | int (i : Int)
  | float (q : Rat)
  | str (s : String)
  | boolean (b : Bool)
  deriving DecidableEq, Repr

/-- A column: its dtype and its cell values (all columns of a frame share a
length; that is not enforced structurally, no claim depends on it). -/
structure Column where
  dtype : Dtype
  values : List Value
  deriving DecidableEq, Repr

/-- A DataFrame: insertion-ordered association of column names to columns. -/
abbrev DataFrame := List (String × Column)

/-- The kind a dtype is classified under by `select_dtypes(include=data_type)`
for the three kind strings the program passes.  pandas resolves the string
`int` to the concrete numpy types int32 and int64 (`check_int_infer_dtype`,
pandas 1.2+), `float` to float64 and `object` to object, and a column is
selected when its dtype's type is a subclass of a resolved type; narrower
integer dtypes (int8, int16), narrower float dtypes (float16, float32),
bool and category therefore match no kind and are never analysed. -/
def kindOf : Dtype → Option String
  | .int32 => some "int"
  | .int64 => some "int"
  | .float64 => some "float"
  | .object => some "object"
  | _ => none

/-- Python `d[k]` / `d.get(k)`: first entry of the association list with the
given key (lists built by `dictInsert` never hold a key twice). -/
def dictGet {α : Type} : List (String × α) → String → Option α
  | [], _ => none
  | entry :: rest, key => if entry.1 = key then some entry.2 else dictGet rest key

/-- Python `d[k] = v`: replace the value at an existing key in place,
otherwise append the new binding at the end. -/
def dictInsert {α : Type} (l : List (String × α)) (key : String) (val : α) :
    List (String × α) :=
  match dictGet l key with
  | some _ => l.map fun entry => if entry.1 = key then (key, val) else entry
  | none => l ++ [(key, val)]

/-- Python `d.update(u)`: insert every binding of `u` into `d` in order. -/
def dictUpdate {α : Type} (l upd : List (String × α)) : List (String × α) :=
  upd.foldl (fun acc entry => dictInsert acc entry.1 entry.2) l

/-- `list(self._df.select_dtypes(include=data_type).columns)`: the names of
the columns whose dtype is classified under `dataType`, in frame order. -/
def selectDtypes (df : DataFrame) (dataType : String) : List String :=
  (df.filter fun entry => decide (kindOf entry.2.dtype = some dataType)).map Prod.fst

/-- `DataFrameChecker._separate_dtypes`: map each of the kinds
`float`, `int`, `object` to its columns, omitting kinds with no columns. -/
def separateDtypes (df : DataFrame) : List (String × List String) :=
  ["float", "int", "object"].filterMap fun dataType =>
    let relevantColumns := selectDtypes df dataType
    if relevantColumns = [] then none else some (dataType, relevantColumns)

/-- Exact minimum of a list of integers (`Series.min`), `none` when empty
(pandas yields NaN, which fails every subsequent range comparison). -/
def listMin : List Int → Option Int
  | [] => none
  | x :: xs =>
    match listMin xs with
    | none => some x
    | some m => some (min x m)

/-- Exact maximum of a list of integers (`Series.max`), `none` when empty. -/
def listMax : List Int → Option Int
  | [] => none
  | x :: xs =>
    match listMax xs with
    | none => some x
    | some m => some (max x m)

/-- The integer payloads of a column's cells. -/
def intValues (vs : List Value) : List Int :=
  vs.filterMap fun v =>
    match v with
    | .int i => some i
    | _ => none

/-- `self._df[col].min()` for an integer column. -/
def colMin (cd : Column) : Option Int := listMin (intValues cd.values)

/-- `self._df[col].max()` for an integer column. -/
def colMax (cd : Column) : Option Int := listMax (intValues cd.values)

/-- The `integer_ranges` table, lower bounds. -/
def integerRangeMin : Nat → Int
  | 8 => -128
  | 16 => -32768
  | 32 => -2147483648
  | _ => 0

/-- The `integer_ranges` table, upper bounds. -/
def integerRangeMax : Nat → Int
  | 8 => 127
  | 16 => 32767
  | 32 => 2147483647
  | _ => 0

/-- The `integer_size_to_numpy_type` table. -/
def integerSizeToNumpyType : Nat → Option Dtype
  | 8 => some .int8
  | 16 => some .int16
  | 32 => some .int32
  | _ => none

/-- The `for int_size in [8, 16, 32]: ... break` loop: first candidate size
whose signed range contains both the minimum and the maximum, inclusive. -/
def firstFittingSize (minVal maxVal : Int) : Option Nat :=
  [8, 16, 32].find? fun intSize =>
    decide (integerRangeMin intSize ≤ minVal) && decide (maxVal ≤ integerRangeMax intSize)

/-- Body of the integer loop for one column: look the column up in the
frame, take its exact min and max, and return the first fitting smaller
dtype, if any.  A missing column name cannot occur (the names come from
the frame itself, where Python would raise a `KeyError`). -/
def intRecommendationFor (df : DataFrame) (col : String) : Option Dtype :=
  match dictGet df col with
  | none => none
  | some cd =>
    match colMin cd, colMax cd with
    | some minVal, some maxVal =>
      match firstFittingSize minVal maxVal with
      | none => none
      | some intSize => integerSizeToNumpyType intSize
    | _, _ => none

/-- `Series.nunique()`: number of distinct cell values of a column. -/
def nunique (cd : Column) : Nat := cd.values.dedup.length

/-- Body of the string loop for one column: recommend `category` when the
distinct-value count is at most the configured threshold (inclusive). -/
def stringRecommendationFor (df : DataFrame) (threshold : Int) (col : String) :
    Option Dtype :=
  match dictGet df col with
  | none => none
  | some cd =>
    if (nunique cd : Int) ≤ threshold then some Dtype.category else none

/-- The `float_size_to_numpy_type` table (`none` models the `KeyError` a
size other than 16/32 would raise, unreachable after construction). -/
def floatSizeToNumpyType (floatSize : Int) : Option Dtype :=
  if floatSize = 16 then some Dtype.float16
  else if floatSize = 32 then some Dtype.float32
  else none

/-- A raised Python exception, as the caller observes it: its class and
its message. -/
inductive PyError where
  | userWarning (msg : String)
  | valueError (msg : String)
  deriving DecidableEq, Repr

/-- The `UserWarning` raised by casting before analysis. -/
def notAnalysedWarning : PyError :=
  .userWarning
    "DataFrame has not been analysed for improvements yet. Run `identify_possible_improvements` method first."

/-- The `UserWarning` raised by casting when analysis found nothing. -/
def noImprovementsWarning : PyError :=
  .userWarning "No possible improvements have been found after analysing DataFrame."

/-- The `ValueError` raised by constructing with an invalid `float_size`. -/
def invalidFloatSizeError : PyError :=
  .valueError "float_size must correspond to a numpy.float (one of 16, 32, or 64)"

/-- The state of a constructed `DataFrameChecker` object. -/
structure DataFrameChecker where
  allPossibleImprovements : List (String × Dtype)
  dataframeHasBeenAnalysed : Bool
  df : DataFrame
  categoricalThreshold : Int
  columnsByType : List (String × List String)
  floatSize : Int
  deriving DecidableEq, Repr

/-- `DataFrameChecker.__init__`: set up the fresh state, cache the column
partition, and validate `float_size`; an invalid size raises `ValueError`
and no object is created. -/
def mkDataFrameChecker (df : DataFrame) (categoricalThreshold floatSize : Int) :
    Except PyError DataFrameChecker :=
  if floatSize ∉ ([16, 32, 64] : List Int) then .error invalidFloatSizeError
  else
    .ok
      { allPossibleImprovements := []
        dataframeHasBeenAnalysed := false
        df := df
        categoricalThreshold := categoricalThreshold
        columnsByType := separateDtypes df
        floatSize := floatSize }

/-- `_check_if_integer_sizes_can_be_reduced`. -/
def checkIfIntegerSizesCanBeReduced (c : DataFrameChecker) : List (String × Dtype) :=
  match dictGet c.columnsByType "int" with
  | none => []
  | some intColumns =>
    if intColumns = [] then []
    else intColumns.filterMap fun col => (intRecommendationFor c.df col).map fun t => (col, t)

/-- `_check_if_strings_could_be_categorical`. -/
def checkIfStringsCouldBeCategorical (c : DataFrameChecker) : List (String × Dtype) :=
  match dictGet c.columnsByType "object" with
  | none => []
  | some stringColumns =>
    if stringColumns = [] then []
    else
      stringColumns.filterMap fun col =>
        (stringRecommendationFor c.df c.categoricalThreshold col).map fun t => (col, t)

/-- `_flag_float_column_improvements`. -/
def flagFloatColumnImprovements (c : DataFrameChecker) : List (String × Dtype) :=
  if c.floatSize = 64 then []
  else
    match dictGet c.columnsByType "float" with
    | none => []
    | some floatColumns =>
      if floatColumns = [] then []
      else floatColumns.filterMap fun col => (floatSizeToNumpyType c.floatSize).map fun t => (col, t)

/-- `get_possible_dtypes`. -/
def getPossibleDtypes (c : DataFrameChecker) : List (String × Dtype) :=
  c.allPossibleImprovements

/-- `identify_possible_improvements`: run the three analyzers in the fixed
order float, integer, categorical, merging each output into the
accumulated mapping, then set the analysed flag.  The analyzers read only
the frame, the configuration and the cached partition, so running them on
`c` matches Python running them on the partially updated object. -/
def identifyPossibleImprovements (c : DataFrameChecker) : DataFrameChecker :=
  let floatImprovements := flagFloatColumnImprovements c
  let afterFloat := dictUpdate c.allPossibleImprovements floatImprovements
  let integerImprovements := checkIfIntegerSizesCanBeReduced c
  let afterInteger := dictUpdate afterFloat integerImprovements
  let categoricalImprovements := checkIfStringsCouldBeCategorical c
  let afterCategorical := dictUpdate afterInteger categoricalImprovements
  { c with
    allPossibleImprovements := afterCategorical
    dataframeHasBeenAnalysed := true }

/-- Reinterpret an integer into `bits`-bit two's complement, as a numpy
`astype` to a narrower integer dtype does. -/
def toSigned (bits : Nat) (i : Int) : Int :=
  (i + 2 ^ (bits - 1)) % 2 ^ bits - 2 ^ (bits - 1)

/-- The effect of `astype(target)` on one cell.  Integer targets wrap into
the target's two's-complement range; `category` keeps the value; float
targets keep the payload at this level of abstraction (IEEE rounding is
not modelled). -/
def castValue (target : Dtype) (v : Value) : Value :=
  match target, v with
  | .int8, .int i => .int (toSigned 8 i)
  | .int16, .int i => .int (toSigned 16 i)
  | .int32, .int i => .int (toSigned 32 i)
  | _, w => w

/-- The effect of `astype(target)` on one column. -/
def castColumn (target : Dtype) (cd : Column) : Column :=
  { dtype := target, values := cd.values.map (castValue target) }

/-- `DataFrame.astype(dtype=mapping)`: a new frame in which each column
named in the mapping is cast to its target and every other column is kept
as it is; the original frame is untouched. -/
def astype (df : DataFrame) (dtypeMap : List (String × Dtype)) : DataFrame :=
  df.map fun entry =>
    match dictGet dtypeMap entry.1 with
    | some target => (entry.1, castColumn target entry.2)
    | none => entry

/-- `cast_dataframe_to_lower_memory_version` (the printed memory report is
I/O and is not modelled). -/
def castDataframeToLowerMemoryVersion (c : DataFrameChecker) :
    Except PyError DataFrame :=
  if c.dataframeHasBeenAnalysed = false then .error notAnalysedWarning
  else if c.allPossibleImprovements = [] then .error noImprovementsWarning
  else .ok (astype c.df c.allPossibleImprovements)

/-- Storage width in bits of a fixed-width dtype. -/
def dtypeWidth : Dtype → Nat
  | .int8 => 8
  | .int16 => 16
  | .int32 => 32
  | .int64 => 64
  | .float16 => 16
  | .float32 => 32
  | .float64 => 64
  | _ => 0

/-! ### Concrete fixtures used by the witnesses -/

/-- A frame with one `int64` column whose values span exactly the 8-bit range. -/
def dfWitInt : DataFrame := [("a", ⟨Dtype.int64, [Value.int (-128), Value.int 127]⟩)]

/-- A freshly constructed checker over `dfWitInt` with the default configuration. -/
def cWitInt : DataFrameChecker := ⟨[], false, dfWitInt, 15, separateDtypes dfWitInt, 16⟩

/-- A frame with one string column holding two distinct values. -/
def dfWitStr : DataFrame := [("s", ⟨Dtype.object, [Value.str "x", Value.str "y"]⟩)]

/-- A checker over `dfWitStr` whose threshold equals the distinct count. -/
def cWitStr : DataFrameChecker := ⟨[], false, dfWitStr, 2, separateDtypes dfWitStr, 16⟩

/-- A checker over `dfWitStr` with a negative categorical threshold. -/
def cWitNeg : DataFrameChecker := ⟨[], false, dfWitStr, -5, separateDtypes dfWitStr, 16⟩

/-- A frame with one float column. -/
def dfWitFloat : DataFrame := [("f", ⟨Dtype.float64, [Value.float 1]⟩)]

/-- A checker over `dfWitFloat` requesting 16-bit floats. -/
def cWitFloat : DataFrameChecker := ⟨[], false, dfWitFloat, 15, separateDtypes dfWitFloat, 16⟩

/-- A checker that has been analysed and found one improvement. -/
def cWitAnalysed : DataFrameChecker :=
  ⟨[("a", Dtype.int8)], true, dfWitInt, 15, separateDtypes dfWitInt, 16⟩

/-- A checker that has been analysed and found nothing. -/
def cWitEmpty : DataFrameChecker := ⟨[], true, [], 15, [], 16⟩

/-- A frame whose single integer column is stored as `int32` and holds
values that fit no candidate narrower than 32 bits. -/
def dfInt32 : DataFrame :=
  [("a", ⟨Dtype.int32, [Value.int (-2147483648), Value.int 0]⟩)]

/-- A freshly constructed checker over `dfInt32`. -/
def cInt32 : DataFrameChecker := ⟨[], false, dfInt32, 15, separateDtypes dfInt32, 16⟩

/-! ### Association-list lemmas -/

theorem dictGet_eq_none_iff {α : Type} {l : List (String × α)} {k : String} :
    dictGet l k = none ↔ k ∉ l.map Prod.fst := by
  induction l with
  | nil => simp [dictGet]
  | cons e rest ih =>
    by_cases he : e.1 = k
    · simp [dictGet, he]
    · simp only [dictGet, if_neg he, List.map_cons, List.mem_cons, ih]
      constructor
      · rintro hk (h | h)
        · exact he h.symm
        · exact hk h
      · intro hk h
        exact hk (Or.inr h)

theorem dictGet_eq_some_of_mem {α : Type} {l : List (String × α)} {k : String} {v : α}
    (hnd : (l.map Prod.fst).Nodup) (h : (k, v) ∈ l) : dictGet l k = some v := by
  induction l with
  | nil => cases h
  | cons e rest ih =>
    rcases List.mem_cons.mp h with h | h
    · cases h
      simp [dictGet]
    · have hk : k ∈ rest.map Prod.fst := List.mem_map.mpr ⟨(k, v), h, rfl⟩
      have hne : e.1 ≠ k := fun he => (List.nodup_cons.mp hnd).1 (he ▸ hk)
      simp only [dictGet, if_neg hne]
      exact ih (List.nodup_cons.mp hnd).2 h

theorem dictGet_recs_of_not_mem {α : Type} (g : String → Option α) {cols : List String}
    {col : String} (h : col ∉ cols) :
    dictGet (cols.filterMap fun c => (g c).map fun t => (c, t)) col = none := by
  induction cols with
  | nil => rfl
  | cons c cs ih =>
    have hne : c ≠ col := fun e => h (e ▸ List.mem_cons_self c cs)
    have hcs : col ∉ cs := fun hm => h (List.mem_cons_of_mem _ hm)
    cases hg : g c with
    | none => simpa [List.filterMap_cons, hg] using ih hcs
    | some t => simp [List.filterMap_cons, hg, dictGet, hne, ih hcs]

theorem dictGet_recs_of_mem {α : Type} (g : String → Option α) {cols : List String}
    (hnd : cols.Nodup) {col : String} (h : col ∈ cols) :
    dictGet (cols.filterMap fun c => (g c).map fun t => (c, t)) col = g col := by
  induction cols with
  | nil => cases h
  | cons c cs ih =>
    rcases List.mem_cons.mp h with rfl | hmem
    · have hnotin : col ∉ cs := (List.nodup_cons.mp hnd).1
      cases hg : g col with
      | none => simpa [List.filterMap_cons, hg] using dictGet_recs_of_not_mem g hnotin
      | some t => simp [List.filterMap_cons, hg, dictGet]
    · have hne : c ≠ col := fun e => (List.nodup_cons.mp hnd).1 (e ▸ hmem)
      cases hg : g c with
      | none => simpa [List.filterMap_cons, hg] using ih (List.nodup_cons.mp hnd).2 hmem
      | some t =>
        simp only [List.filterMap_cons, hg, Option.map_some', dictGet, if_neg hne]
        exact ih (List.nodup_cons.mp hnd).2 hmem

theorem dictGet_recs_eq_some {α : Type} (g : String → Option α) {cols : List String}
    {col : String} {t : α}
    (h : dictGet (cols.filterMap fun c => (g c).map fun t => (c, t)) col = some t) :
    col ∈ cols ∧ g col = some t := by
  induction cols with
  | nil => simp [dictGet] at h
  | cons c cs ih =>
    cases hg : g c with
    | none =>
      rw [List.filterMap_cons, hg] at h
      rcases ih h with ⟨hm, hgc⟩
      exact ⟨List.mem_cons_of_mem _ hm, hgc⟩
    | some t' =>
      rw [List.filterMap_cons, hg] at h
      by_cases hc : c = col
      · simp only [Option.map_some', dictGet, if_pos hc] at h
        cases h
        exact ⟨hc ▸ List.mem_cons_self c cs, hc ▸ hg⟩
      · simp only [Option.map_some', dictGet, if_neg hc] at h
        rcases ih h with ⟨hm, hgc⟩
        exact ⟨List.mem_cons_of_mem _ hm, hgc⟩

theorem keys_recs_sublist {α : Type} (g : String → Option α) (cols : List String) :
    ((cols.filterMap fun c => (g c).map fun t => (c, t)).map Prod.fst).Sublist cols := by
  induction cols with
  | nil => simp
  | cons c cs ih =>
    cases hg : g c with
    | none =>
      rw [List.filterMap_cons, hg]
      exact ih.cons c
    | some t =>
      rw [List.filterMap_cons, hg, Option.map_some', List.map_cons]
      exact ih.cons₂ c

theorem filterMap_some_eq_map {α β : Type} (g : α → β) (l : List α) :
    (l.filterMap fun a => some (g a)) = l.map g := by
  induction l with
  | nil => rfl
  | cons a as ih => simp [List.filterMap_cons, ih]

/-! ### Column-partition lemmas -/

theorem mem_selectDtypes {df : DataFrame} {dataType col : String} :
    col ∈ selectDtypes df dataType ↔
      ∃ cd, (col, cd) ∈ df ∧ kindOf cd.dtype = some dataType := by
  constructor
  · intro h
    rcases List.mem_map.mp h with ⟨e, he, rfl⟩
    rcases List.mem_filter.mp he with ⟨hmem, hk⟩
    exact ⟨e.2, by simpa using hmem, of_decide_eq_true hk⟩
  · rintro ⟨cd, hmem, hk⟩
    exact List.mem_map.mpr ⟨(col, cd), List.mem_filter.mpr ⟨hmem, decide_eq_true hk⟩, rfl⟩

theorem selectDtypes_nodup {df : DataFrame} (h : (df.map Prod.fst).Nodup)
    (dataType : String) : (selectDtypes df dataType).Nodup :=
  h.sublist ((List.filter_sublist df).map Prod.fst)

theorem selectDtypes_disjoint {df : DataFrame} (h : (df.map Prod.fst).Nodup)
    {k₁ k₂ col : String} (hne : k₁ ≠ k₂) (h₁ : col ∈ selectDtypes df k₁)
    (h₂ : col ∈ selectDtypes df k₂) : False := by
  rcases mem_selectDtypes.mp h₁ with ⟨cd₁, hm₁, hk₁⟩
  rcases mem_selectDtypes.mp h₂ with ⟨cd₂, hm₂, hk₂⟩
  have e1 := dictGet_eq_some_of_mem h hm₁
  have e2 := dictGet_eq_some_of_mem h hm₂
  rw [e1] at e2
  cases e2
  rw [hk₁] at hk₂
  exact hne (Option.some.inj hk₂)

theorem dictGet_separateDtypes_float (df : DataFrame) :
    dictGet (separateDtypes df) "float" =
      if selectDtypes df "float" = [] then none else some (selectDtypes df "float") := by
  unfold separateDtypes
  by_cases hf : selectDtypes df "float" = [] <;> by_cases hi : selectDtypes df "int" = [] <;>
    by_cases ho : selectDtypes df "object" = [] <;>
    simp [hf, hi, ho, dictGet, List.filterMap_cons]

theorem dictGet_separateDtypes_int (df : DataFrame) :
    dictGet (separateDtypes df) "int" =
      if selectDtypes df "int" = [] then none else some (selectDtypes df "int") := by
  unfold separateDtypes
  by_cases hf : selectDtypes df "float" = [] <;> by_cases hi : selectDtypes df "int" = [] <;>
    by_cases ho : selectDtypes df "object" = [] <;>
    simp [hf, hi, ho, dictGet, List.filterMap_cons]

theorem dictGet_separateDtypes_object (df : DataFrame) :
    dictGet (separateDtypes df) "object" =
      if selectDtypes df "object" = [] then none else some (selectDtypes df "object") := by
  unfold separateDtypes
  by_cases hf : selectDtypes df "float" = [] <;> by_cases hi : selectDtypes df "int" = [] <;>
    by_cases ho : selectDtypes df "object" = [] <;>
    simp [hf, hi, ho, dictGet, List.filterMap_cons]

/-! ### Analyzer normal forms (under the cached-partition invariant) -/

theorem checkInt_eq (c : DataFrameChecker) (hcache : c.columnsByType = separateDtypes c.df) :
    checkIfIntegerSizesCanBeReduced c =
      (selectDtypes c.df "int").filterMap fun col =>
        (intRecommendationFor c.df col).map fun t => (col, t) := by
  unfold checkIfIntegerSizesCanBeReduced
  rw [hcache, dictGet_separateDtypes_int]
  by_cases hi : selectDtypes c.df "int" = []
  · simp [hi]
  · simp [hi]

theorem checkStrings_eq (c : DataFrameChecker)
    (hcache : c.columnsByType = separateDtypes c.df) :
    checkIfStringsCouldBeCategorical c =
      (selectDtypes c.df "object").filterMap fun col =>
        (stringRecommendationFor c.df c.categoricalThreshold col).map fun t => (col, t) := by
  unfold checkIfStringsCouldBeCategorical
  rw [hcache, dictGet_separateDtypes_object]
  by_cases ho : selectDtypes c.df "object" = []
  · simp [ho]
  · simp [ho]

theorem flagFloat_eq (c : DataFrameChecker)
    (hcache : c.columnsByType = separateDtypes c.df) :
    flagFloatColumnImprovements c =
      if c.floatSize = 64 then []
      else
        (selectDtypes c.df "float").filterMap fun col =>
          (floatSizeToNumpyType c.floatSize).map fun t => (col, t) := by
  unfold flagFloatColumnImprovements
  by_cases h64 : c.floatSize = 64
  · simp [h64]
  · rw [if_neg h64, if_neg h64, hcache, dictGet_separateDtypes_float]
    by_cases hf : selectDtypes c.df "float" = []
    · simp [hf]
    · simp [hf]

/-! ### Python-dict update lemmas -/

theorem dictGet_mapReplace_self {α : Type} (l : List (String × α)) (k : String) (v : α) :
    dictGet (l.map fun e => if e.1 = k then (k, v) else e) k =
      (dictGet l k).map fun _ => v := by
  induction l with
  | nil => rfl
  | cons e rest ih =>
    by_cases he : e.1 = k
    · simp [dictGet, he]
    · simp [dictGet, he, ih]

theorem dictGet_mapReplace_ne {α : Type} (l : List (String × α)) {k k' : String} (v : α)
    (h : k' ≠ k) :
    dictGet (l.map fun e => if e.1 = k then (k, v) else e) k' = dictGet l k' := by
  induction l with
  | nil => rfl
  | cons e rest ih =>
    simp only [List.map_cons]
    by_cases he : e.1 = k
    · rw [if_pos he]
      simp only [dictGet]
      rw [if_neg (show ¬k = k' from fun hh => h hh.symm),
        if_neg (show ¬e.1 = k' from fun hh => h (hh ▸ he))]
      exact ih
    · rw [if_neg he]
      simp only [dictGet]
      by_cases he' : e.1 = k'
      · rw [if_pos he', if_pos he']
      · rw [if_neg he', if_neg he']
        exact ih

theorem mapReplace_of_not_mem_keys {α : Type} {l : List (String × α)} {k : String} (v : α)
    (h : k ∉ l.map Prod.fst) :
    (l.map fun e => if e.1 = k then (k, v) else e) = l := by
  induction l with
  | nil => rfl
  | cons e rest ih =>
    have hne : e.1 ≠ k := fun he => h (by simp [he])
    have hrest : k ∉ rest.map Prod.fst := fun hm => h (by simp [hm])
    simp [hne, ih hrest]

theorem dictGet_append_single_self {α : Type} {l : List (String × α)} {k : String} (v : α)
    (h : dictGet l k = none) : dictGet (l ++ [(k, v)]) k = some v := by
  induction l with
  | nil => simp [dictGet]
  | cons e rest ih =>
    by_cases he : e.1 = k
    · simp [dictGet, he] at h
    · simp only [dictGet, if_neg he] at h
      simpa [dictGet, he] using ih h

theorem dictGet_append_single_ne {α : Type} (l : List (String × α)) {k k' : String} (v : α)
    (h : k' ≠ k) : dictGet (l ++ [(k, v)]) k' = dictGet l k' := by
  induction l with
  | nil =>
    show (if k = k' then some v else dictGet [] k') = dictGet [] k'
    rw [if_neg (show ¬k = k' from fun e => h e.symm)]
  | cons e rest ih =>
    show (if e.1 = k' then some e.2 else dictGet (rest ++ [(k, v)]) k') = dictGet (e :: rest) k'
    simp only [dictGet]
    by_cases he : e.1 = k'
    · rw [if_pos he, if_pos he]
    · rw [if_neg he, if_neg he]
      exact ih

theorem dictGet_dictInsert_self {α : Type} (l : List (String × α)) (k : String) (v : α) :
    dictGet (dictInsert l k v) k = some v := by
  unfold dictInsert
  cases hg : dictGet l k with
  | none => exact dictGet_append_single_self v hg
  | some w => rw [dictGet_mapReplace_self, hg, Option.map_some']

theorem dictGet_dictInsert_ne {α : Type} (l : List (String × α)) {k k' : String} (v : α)
    (h : k' ≠ k) : dictGet (dictInsert l k v) k' = dictGet l k' := by
  unfold dictInsert
  cases hg : dictGet l k with
  | none => exact dictGet_append_single_ne l v h
  | some w => exact dictGet_mapReplace_ne l v h

theorem keys_mapReplace {α : Type} (l : List (String × α)) (k : String) (v : α) :
    (l.map fun e => if e.1 = k then (k, v) else e).map Prod.fst = l.map Prod.fst := by
  induction l with
  | nil => rfl
  | cons e rest ih =>
    by_cases he : e.1 = k
    · simp [he, ih]
    · simp [he, ih]

theorem keys_dictInsert_nodup {α : Type} {l : List (String × α)} (k : String) (v : α)
    (hnd : (l.map Prod.fst).Nodup) : ((dictInsert l k v).map Prod.fst).Nodup := by
  unfold dictInsert
  cases hg : dictGet l k with
  | none =>
    have hk : k ∉ l.map Prod.fst := dictGet_eq_none_iff.mp hg
    have hkeys : (l ++ [(k, v)]).map Prod.fst = l.map Prod.fst ++ [k] := by simp
    rw [hkeys]
    exact List.Nodup.append hnd (List.nodup_singleton k)
      (fun a ha hb => hk (by rwa [List.mem_singleton.mp hb] at ha))
  | some w =>
    rw [keys_mapReplace]
    exact hnd

theorem keys_dictUpdate_nodup {α : Type} {l : List (String × α)} (upd : List (String × α))
    (hnd : (l.map Prod.fst).Nodup) : ((dictUpdate l upd).map Prod.fst).Nodup := by
  induction upd generalizing l with
  | nil => exact hnd
  | cons e u ih => exact ih (keys_dictInsert_nodup e.1 e.2 hnd)

theorem dictGet_dictUpdate_not_mem {α : Type} {l upd : List (String × α)} {k : String}
    (h : k ∉ upd.map Prod.fst) : dictGet (dictUpdate l upd) k = dictGet l k := by
  induction upd generalizing l with
  | nil => rfl
  | cons e u ih =>
    have hne : k ≠ e.1 := fun he => h (by simp [he])
    have hu : k ∉ u.map Prod.fst := fun hm => h (by simp [hm])
    calc dictGet (dictUpdate (dictInsert l e.1 e.2) u) k
        = dictGet (dictInsert l e.1 e.2) k := ih hu
      _ = dictGet l k := dictGet_dictInsert_ne l e.2 hne

theorem dictGet_dictUpdate_mem {α : Type} {l upd : List (String × α)} {k : String} {v : α}
    (hnd : (upd.map Prod.fst).Nodup) (h : (k, v) ∈ upd) :
    dictGet (dictUpdate l upd) k = some v := by
  induction upd generalizing l with
  | nil => cases h
  | cons e u ih =>
    rcases List.mem_cons.mp h with h | h
    · cases h
      have hk : k ∉ u.map Prod.fst := (List.nodup_cons.mp hnd).1
      calc dictGet (dictUpdate (dictInsert l k v) u) k
          = dictGet (dictInsert l k v) k := dictGet_dictUpdate_not_mem hk
        _ = some v := dictGet_dictInsert_self l k v
    · exact ih (List.nodup_cons.mp hnd).2 h

theorem mapReplace_of_dictGet_some {α : Type} {l : List (String × α)} {k : String} {v : α}
    (hnd : (l.map Prod.fst).Nodup) (h : dictGet l k = some v) :
    (l.map fun e => if e.1 = k then (k, v) else e) = l := by
  induction l with
  | nil => simp [dictGet] at h
  | cons e rest ih =>
    by_cases he : e.1 = k
    · have hv : v = e.2 := by
        simp only [dictGet, if_pos he] at h
        exact (Option.some.inj h).symm
      have hk : k ∉ rest.map Prod.fst := by
        have hh := (List.nodup_cons.mp hnd).1
        exact fun hm => hh (he ▸ hm)
      simp only [List.map_cons, if_pos he, mapReplace_of_not_mem_keys v hk]
      rw [← he, hv]
    · simp only [dictGet, if_neg he] at h
      simp only [List.map_cons, if_neg he]
      rw [ih (List.nodup_cons.mp hnd).2 h]

theorem dictInsert_eq_self {α : Type} {l : List (String × α)} {k : String} {v : α}
    (hnd : (l.map Prod.fst).Nodup) (h : dictGet l k = some v) : dictInsert l k v = l := by
  unfold dictInsert
  rw [h]
  exact mapReplace_of_dictGet_some hnd h

theorem dictUpdate_eq_self {α : Type} {l upd : List (String × α)}
    (hnd : (l.map Prod.fst).Nodup) (h : ∀ e ∈ upd, dictGet l e.1 = some e.2) :
    dictUpdate l upd = l := by
  induction upd with
  | nil => rfl
  | cons e u ih =>
    have he : dictInsert l e.1 e.2 = l :=
      dictInsert_eq_self hnd (h e (List.mem_cons_self e u))
    show dictUpdate (dictInsert l e.1 e.2) u = l
    rw [he]
    exact ih fun e' he' => h e' (List.mem_cons_of_mem _ he')

/-! ### astype lemmas -/

theorem keys_astype (df : DataFrame) (m : List (String × Dtype)) :
    (astype df m).map Prod.fst = df.map Prod.fst := by
  unfold astype
  rw [List.map_map]
  apply List.map_congr_left
  intro e _
  cases hm : dictGet m e.1 with
  | none => simp [hm]
  | some t => simp [hm]

theorem dictGet_astype_none {df : DataFrame} {m : List (String × Dtype)} {col : String}
    (h : dictGet m col = none) : dictGet (astype df m) col = dictGet df col := by
  induction df with
  | nil => rfl
  | cons e rest ih =>
    by_cases he : e.1 = col
    · subst he
      simp [astype, dictGet, h]
    · cases hm : dictGet m e.1 with
      | none => simpa [astype, hm, dictGet, he] using ih
      | some t => simpa [astype, hm, dictGet, he] using ih

theorem dictGet_astype_some {df : DataFrame} {m : List (String × Dtype)} {col : String}
    {t : Dtype} (h : dictGet m col = some t) :
    dictGet (astype df m) col = (dictGet df col).map (castColumn t) := by
  induction df with
  | nil => rfl
  | cons e rest ih =>
    by_cases he : e.1 = col
    · subst he
      simp [astype, dictGet, h]
    · cases hm : dictGet m e.1 with
      | none => simpa [astype, hm, dictGet, he] using ih
      | some t' => simpa [astype, hm, dictGet, he] using ih

/-! ### Integer first-fit loop characterization -/

theorem firstFit_match_eq_nested (mn mx : Int) :
    (match firstFittingSize mn mx with
     | none => none
     | some intSize => integerSizeToNumpyType intSize) =
      if -128 ≤ mn ∧ mx ≤ 127 then some Dtype.int8
      else if -32768 ≤ mn ∧ mx ≤ 32767 then some Dtype.int16
      else if -2147483648 ≤ mn ∧ mx ≤ 2147483647 then some Dtype.int32
      else none := by
  unfold firstFittingSize
  by_cases h8 : (-128 : Int) ≤ mn ∧ mx ≤ 127
  · rw [List.find?_cons_of_pos _ (by simp [integerRangeMin, integerRangeMax, h8.1, h8.2])]
    simp [integerSizeToNumpyType, h8]
  · rw [List.find?_cons_of_neg _ (by simp [integerRangeMin, integerRangeMax]; omega)]
    by_cases h16 : (-32768 : Int) ≤ mn ∧ mx ≤ 32767
    · rw [List.find?_cons_of_pos _ (by simp [integerRangeMin, integerRangeMax, h16.1, h16.2])]
      simp [integerSizeToNumpyType, h8, h16]
    · rw [List.find?_cons_of_neg _ (by simp [integerRangeMin, integerRangeMax]; omega)]
      by_cases h32 : (-2147483648 : Int) ≤ mn ∧ mx ≤ 2147483647
      · rw [List.find?_cons_of_pos _
          (by simp [integerRangeMin, integerRangeMax, h32.1, h32.2])]
        simp [integerSizeToNumpyType, h8, h16, h32]
      · rw [List.find?_cons_of_neg _ (by simp [integerRangeMin, integerRangeMax]; omega)]
        simp [h8, h16, h32]

theorem intRecommendationFor_eq {df : DataFrame} {col : String} {cd : Column} {mn mx : Int}
    (hnodup : (df.map Prod.fst).Nodup) (hmem : (col, cd) ∈ df)
    (hmn : colMin cd = some mn) (hmx : colMax cd = some mx) :
    intRecommendationFor df col =
      if -128 ≤ mn ∧ mx ≤ 127 then some Dtype.int8
      else if -32768 ≤ mn ∧ mx ≤ 32767 then some Dtype.int16
      else if -2147483648 ≤ mn ∧ mx ≤ 2147483647 then some Dtype.int32
      else none := by
  unfold intRecommendationFor
  rw [dictGet_eq_some_of_mem hnodup hmem]
  simp only [hmn, hmx]
  exact firstFit_match_eq_nested mn mx

/-! ### Claim theorems -/

/-- C1: For every integer-kind column with exact minimum `mn` and maximum `mx`,
the integer-range analyzer recommends a width exactly when one of the ordered
candidates 8, 16, 32 (signed ranges [-128,127], [-32768,32767],
[-2147483648,2147483647]) contains both `mn` and `mx` inclusive, and the
recommendation is the first (smallest) such candidate; when none fits the
column receives no recommendation. -/
theorem c1_integer_analyzer_first_fit (c : DataFrameChecker)
    (hcache : c.columnsByType = separateDtypes c.df)
    (hnodup : (c.df.map Prod.fst).Nodup)
    (col : String) (cd : Column)
    (hmem : (col, cd) ∈ c.df) (hkind : kindOf cd.dtype = some "int")
    (mn mx : Int) (hmn : colMin cd = some mn) (hmx : colMax cd = some mx) :
    dictGet (checkIfIntegerSizesCanBeReduced c) col =
      if -128 ≤ mn ∧ mx ≤ 127 then some Dtype.int8
      else if -32768 ≤ mn ∧ mx ≤ 32767 then some Dtype.int16
      else if -2147483648 ≤ mn ∧ mx ≤ 2147483647 then some Dtype.int32
      else none := by
  rw [checkInt_eq c hcache,
    dictGet_recs_of_mem _ (selectDtypes_nodup hnodup "int")
      (mem_selectDtypes.mpr ⟨cd, hmem, hkind⟩),
    intRecommendationFor_eq hnodup hmem hmn hmx]

/-- Witness for C1 at a concrete one-column frame spanning the 8-bit range. -/
theorem c1_witness :
    cWitInt.columnsByType = separateDtypes cWitInt.df ∧
    (cWitInt.df.map Prod.fst).Nodup ∧
    ("a", (⟨Dtype.int64, [Value.int (-128), Value.int 127]⟩ : Column)) ∈ cWitInt.df ∧
    colMin ⟨Dtype.int64, [Value.int (-128), Value.int 127]⟩ = some (-128) ∧
    colMax ⟨Dtype.int64, [Value.int (-128), Value.int 127]⟩ = some 127 ∧
    dictGet (checkIfIntegerSizesCanBeReduced cWitInt) "a" = some Dtype.int8 :=
  ⟨rfl, by decide, by decide, by decide, by decide,
    (c1_integer_analyzer_first_fit cWitInt rfl (by decide) "a"
      ⟨Dtype.int64, [Value.int (-128), Value.int 127]⟩ (by decide) (by decide)
      (-128) 127 (by decide) (by decide)).trans (by decide)⟩

/-- C2: When the configured float width is 64 the float analyzer recommends
nothing; otherwise every float-kind column is recommended at exactly the
configured width — the output depends only on the float-kind column names,
never on any cell value. -/
theorem c2_float_policy (c : DataFrameChecker)
    (hcache : c.columnsByType = separateDtypes c.df)
    (hvalid : c.floatSize = 16 ∨ c.floatSize = 32 ∨ c.floatSize = 64) :
    flagFloatColumnImprovements c =
      if c.floatSize = 64 then []
      else
        (selectDtypes c.df "float").map fun col =>
          (col, if c.floatSize = 16 then Dtype.float16 else Dtype.float32) := by
  rw [flagFloat_eq c hcache]
  rcases hvalid with h | h | h
  · rw [h]
    norm_num [floatSizeToNumpyType, filterMap_some_eq_map]
  · rw [h]
    norm_num [floatSizeToNumpyType, filterMap_some_eq_map]
  · rw [h]
    simp

/-- Witness for C2 at a concrete frame with one float column. -/
theorem c2_witness :
    cWitFloat.columnsByType = separateDtypes cWitFloat.df ∧
    cWitFloat.floatSize = 16 ∧
    flagFloatColumnImprovements cWitFloat = [("f", Dtype.float16)] :=
  ⟨rfl, rfl,
    (c2_float_policy cWitFloat rfl (Or.inl rfl)).trans (by decide)⟩

/-- C3: A string-kind column is recommended the categorical descriptor exactly
when its distinct-value count is at most the configured threshold; the
comparison is inclusive. -/
theorem c3_categorical_inclusive (c : DataFrameChecker)
    (hcache : c.columnsByType = separateDtypes c.df)
    (hnodup : (c.df.map Prod.fst).Nodup)
    (col : String) (cd : Column)
    (hmem : (col, cd) ∈ c.df) (hkind : kindOf cd.dtype = some "object") :
    dictGet (checkIfStringsCouldBeCategorical c) col =
      if (nunique cd : Int) ≤ c.categoricalThreshold then some Dtype.category
      else none := by
  rw [checkStrings_eq c hcache,
    dictGet_recs_of_mem _ (selectDtypes_nodup hnodup "object")
      (mem_selectDtypes.mpr ⟨cd, hmem, hkind⟩)]
  unfold stringRecommendationFor
  rw [dictGet_eq_some_of_mem hnodup hmem]

/-- Witness for C3 at a column whose distinct count equals the threshold. -/
theorem c3_witness :
    nunique ⟨Dtype.object, [Value.str "x", Value.str "y"]⟩ = 2 ∧
    cWitStr.categoricalThreshold = 2 ∧
    dictGet (checkIfStringsCouldBeCategorical cWitStr) "s" = some Dtype.category :=
  ⟨by decide, rfl,
    (c3_categorical_inclusive cWitStr rfl (by decide) "s"
      ⟨Dtype.object, [Value.str "x", Value.str "y"]⟩ (by decide) (by decide)).trans
      (by decide)⟩

/-- C4: Materialization checks the analysed flag first in every state and
fails with the not-analysed warning; once analysed, it fails with the
no-improvements warning exactly when the mapping is empty, and succeeds
(raising neither error) when at least one recommendation exists. -/
theorem c4_cast_preconditions (c : DataFrameChecker) :
    (c.dataframeHasBeenAnalysed = false →
      castDataframeToLowerMemoryVersion c = .error notAnalysedWarning) ∧
    (c.dataframeHasBeenAnalysed = true → c.allPossibleImprovements = [] →
      castDataframeToLowerMemoryVersion c = .error noImprovementsWarning) ∧
    (c.dataframeHasBeenAnalysed = true → c.allPossibleImprovements ≠ [] →
      castDataframeToLowerMemoryVersion c = .ok (astype c.df c.allPossibleImprovements)) := by
  refine ⟨fun h => ?_, fun h1 h2 => ?_, fun h1 h2 => ?_⟩
  · unfold castDataframeToLowerMemoryVersion
    rw [if_pos h]
  · unfold castDataframeToLowerMemoryVersion
    rw [if_neg (by simp [h1]), if_pos h2]
  · unfold castDataframeToLowerMemoryVersion
    rw [if_neg (by simp [h1]), if_neg h2]

/-- Witness for C4 in each of the three states. -/
theorem c4_witness :
    castDataframeToLowerMemoryVersion cWitInt = Except.error notAnalysedWarning ∧
    castDataframeToLowerMemoryVersion cWitEmpty = Except.error noImprovementsWarning ∧
    castDataframeToLowerMemoryVersion cWitAnalysed =
      Except.ok (astype cWitAnalysed.df cWitAnalysed.allPossibleImprovements) :=
  ⟨(c4_cast_preconditions cWitInt).1 rfl,
   (c4_cast_preconditions cWitEmpty).2.1 rfl rfl,
   (c4_cast_preconditions cWitAnalysed).2.2 rfl (by decide)⟩

/-- C5: Construction fails with the invalid-configuration error for every
float width outside 16/32/64, producing no checker; for each width in
16/32/64 it succeeds with the fresh, unanalysed state. -/
theorem c5_float_size_validated (df : DataFrame) (th fs : Int) :
    (fs ≠ 16 → fs ≠ 32 → fs ≠ 64 →
      mkDataFrameChecker df th fs = .error invalidFloatSizeError) ∧
    (fs = 16 ∨ fs = 32 ∨ fs = 64 →
      mkDataFrameChecker df th fs = .ok ⟨[], false, df, th, separateDtypes df, fs⟩) := by
  constructor
  · intro h16 h32 h64
    unfold mkDataFrameChecker
    rw [if_pos (by simp [h16, h32, h64])]
  · intro hv
    unfold mkDataFrameChecker
    rw [if_neg (not_not_intro (by rcases hv with h | h | h <;> simp [h]))]

/-- Witness for C5 at the invalid width 99 and the valid width 16. -/
theorem c5_witness :
    mkDataFrameChecker [] 15 99 = Except.error invalidFloatSizeError ∧
    mkDataFrameChecker [] 15 16 = Except.ok ⟨[], false, [], 15, separateDtypes [], 16⟩ :=
  ⟨(c5_float_size_validated [] 15 99).1 (by decide) (by decide) (by decide),
   (c5_float_size_validated [] 15 16).2 (Or.inl rfl)⟩

/-- C6: Materialization returns exactly the original frame with each
recommended column cast to its target descriptor: the column names and
their order are preserved, every non-recommended column (including kinds
never classified, such as boolean) is passed through with values and dtype
unchanged, every recommended column is the cast of the original, and the
context's frame is not changed by the analyze operation (all operations are
pure on the frame). -/
theorem c6_materializer_pass_through (c : DataFrameChecker)
    (h1 : c.dataframeHasBeenAnalysed = true) (h2 : c.allPossibleImprovements ≠ []) :
    castDataframeToLowerMemoryVersion c = .ok (astype c.df c.allPossibleImprovements) ∧
    (astype c.df c.allPossibleImprovements).map Prod.fst = c.df.map Prod.fst ∧
    (∀ col, dictGet c.allPossibleImprovements col = none →
      dictGet (astype c.df c.allPossibleImprovements) col = dictGet c.df col) ∧
    (∀ col t, dictGet c.allPossibleImprovements col = some t →
      dictGet (astype c.df c.allPossibleImprovements) col =
        (dictGet c.df col).map (castColumn t)) ∧
    (identifyPossibleImprovements c).df = c.df := by
  refine ⟨?_, keys_astype c.df c.allPossibleImprovements,
    fun col h => dictGet_astype_none h,
    fun col t h => dictGet_astype_some h, rfl⟩
  unfold castDataframeToLowerMemoryVersion
  rw [if_neg (by simp [h1]), if_neg h2]

/-- Witness for C6 at an analysed checker holding one recommendation. -/
theorem c6_witness :
    cWitAnalysed.dataframeHasBeenAnalysed = true ∧
    cWitAnalysed.allPossibleImprovements ≠ [] ∧
    (astype cWitAnalysed.df cWitAnalysed.allPossibleImprovements).map Prod.fst =
      cWitAnalysed.df.map Prod.fst :=
  ⟨rfl, by decide, (c6_materializer_pass_through cWitAnalysed rfl (by decide)).2.1⟩

/-! helper facts about the analyzers' key sets, used for C7 -/

theorem keys_flagFloat_sublist (c : DataFrameChecker)
    (hcache : c.columnsByType = separateDtypes c.df) :
    ((flagFloatColumnImprovements c).map Prod.fst).Sublist (selectDtypes c.df "float") := by
  rw [flagFloat_eq c hcache]
  by_cases h : c.floatSize = 64
  · simp [h]
  · rw [if_neg h]
    exact keys_recs_sublist _ _

theorem keys_checkInt_sublist (c : DataFrameChecker)
    (hcache : c.columnsByType = separateDtypes c.df) :
    ((checkIfIntegerSizesCanBeReduced c).map Prod.fst).Sublist (selectDtypes c.df "int") := by
  rw [checkInt_eq c hcache]
  exact keys_recs_sublist _ _

theorem keys_checkStrings_sublist (c : DataFrameChecker)
    (hcache : c.columnsByType = separateDtypes c.df) :
    ((checkIfStringsCouldBeCategorical c).map Prod.fst).Sublist
      (selectDtypes c.df "object") := by
  rw [checkStrings_eq c hcache]
  exact keys_recs_sublist _ _

/-- C7: The analyze operation merges the three analyzer outputs into the
accumulated mapping in the fixed order float, integer, categorical, and
sets the analysed flag; the three key sets are pairwise disjoint (so no
merge overwrites another analyzer's entry), and running the operation twice
on an unchanged frame leaves exactly the mapping of a single run. -/
theorem c7_analyze_merge_idempotent (c : DataFrameChecker)
    (hcache : c.columnsByType = separateDtypes c.df)
    (hnodup : (c.df.map Prod.fst).Nodup)
    (himp : (c.allPossibleImprovements.map Prod.fst).Nodup) :
    (identifyPossibleImprovements c).allPossibleImprovements =
      dictUpdate (dictUpdate (dictUpdate c.allPossibleImprovements
        (flagFloatColumnImprovements c)) (checkIfIntegerSizesCanBeReduced c))
        (checkIfStringsCouldBeCategorical c) ∧
    (identifyPossibleImprovements c).dataframeHasBeenAnalysed = true ∧
    (∀ x, x ∈ (flagFloatColumnImprovements c).map Prod.fst →
      x ∈ (checkIfIntegerSizesCanBeReduced c).map Prod.fst → False) ∧
    (∀ x, x ∈ (flagFloatColumnImprovements c).map Prod.fst →
      x ∈ (checkIfStringsCouldBeCategorical c).map Prod.fst → False) ∧
    (∀ x, x ∈ (checkIfIntegerSizesCanBeReduced c).map Prod.fst →
      x ∈ (checkIfStringsCouldBeCategorical c).map Prod.fst → False) ∧
    getPossibleDtypes (identifyPossibleImprovements (identifyPossibleImprovements c)) =
      getPossibleDtypes (identifyPossibleImprovements c) := by
  have hF := keys_flagFloat_sublist c hcache
  have hI := keys_checkInt_sublist c hcache
  have hS := keys_checkStrings_sublist c hcache
  have dFI : ∀ x, x ∈ (flagFloatColumnImprovements c).map Prod.fst →
      x ∈ (checkIfIntegerSizesCanBeReduced c).map Prod.fst → False := fun x hx hy =>
    selectDtypes_disjoint hnodup (by decide) (hF.subset hx) (hI.subset hy)
  have dFS : ∀ x, x ∈ (flagFloatColumnImprovements c).map Prod.fst →
      x ∈ (checkIfStringsCouldBeCategorical c).map Prod.fst → False := fun x hx hy =>
    selectDtypes_disjoint hnodup (by decide) (hF.subset hx) (hS.subset hy)
  have dIS : ∀ x, x ∈ (checkIfIntegerSizesCanBeReduced c).map Prod.fst →
      x ∈ (checkIfStringsCouldBeCategorical c).map Prod.fst → False := fun x hx hy =>
    selectDtypes_disjoint hnodup (by decide) (hI.subset hx) (hS.subset hy)
  have hFnd : ((flagFloatColumnImprovements c).map Prod.fst).Nodup :=
    (selectDtypes_nodup hnodup "float").sublist hF
  have hInd : ((checkIfIntegerSizesCanBeReduced c).map Prod.fst).Nodup :=
    (selectDtypes_nodup hnodup "int").sublist hI
  have hSnd : ((checkIfStringsCouldBeCategorical c).map Prod.fst).Nodup :=
    (selectDtypes_nodup hnodup "object").sublist hS
  refine ⟨rfl, rfl, dFI, dFS, dIS, ?_⟩
  set F := flagFloatColumnImprovements c with hFdef
  set I := checkIfIntegerSizesCanBeReduced c with hIdef
  set S := checkIfStringsCouldBeCategorical c with hSdef
  set M := dictUpdate (dictUpdate (dictUpdate c.allPossibleImprovements F) I) S with hMdef
  have hMnd : (M.map Prod.fst).Nodup :=
    keys_dictUpdate_nodup _ (keys_dictUpdate_nodup _ (keys_dictUpdate_nodup _ himp))
  have hgetF : ∀ e ∈ F, dictGet M e.1 = some e.2 := by
    intro e he
    have hkey : e.1 ∈ F.map Prod.fst := List.mem_map.mpr ⟨e, he, rfl⟩
    have h1 : dictGet (dictUpdate c.allPossibleImprovements F) e.1 = some e.2 :=
      dictGet_dictUpdate_mem hFnd he
    rw [hMdef, dictGet_dictUpdate_not_mem (fun hm => dFS e.1 hkey hm),
      dictGet_dictUpdate_not_mem (fun hm => dFI e.1 hkey hm)]
    exact h1
  have hgetI : ∀ e ∈ I, dictGet M e.1 = some e.2 := by
    intro e he
    have hkey : e.1 ∈ I.map Prod.fst := List.mem_map.mpr ⟨e, he, rfl⟩
    rw [hMdef, dictGet_dictUpdate_not_mem (fun hm => dIS e.1 hkey hm)]
    exact dictGet_dictUpdate_mem hInd he
  have hgetS : ∀ e ∈ S, dictGet M e.1 = some e.2 := by
    intro e he
    rw [hMdef]
    exact dictGet_dictUpdate_mem hSnd he
  have hMF : dictUpdate M F = M := dictUpdate_eq_self hMnd hgetF
  have hMI : dictUpdate M I = M := dictUpdate_eq_self hMnd hgetI
  have hMS : dictUpdate M S = M := dictUpdate_eq_self hMnd hgetS
  show dictUpdate (dictUpdate (dictUpdate M F) I) S = M
  rw [hMF, hMI, hMS]

/-- Witness for C7 at a concrete fresh checker. -/
theorem c7_witness :
    cWitInt.columnsByType = separateDtypes cWitInt.df ∧
    (cWitInt.df.map Prod.fst).Nodup ∧
    getPossibleDtypes (identifyPossibleImprovements (identifyPossibleImprovements cWitInt)) =
      getPossibleDtypes (identifyPossibleImprovements cWitInt) :=
  ⟨rfl, by decide,
    (c7_analyze_merge_idempotent cWitInt rfl (by decide) (by decide)).2.2.2.2.2⟩

/-! helper facts about degenerate integer columns, used for C8 -/

theorem intRecommendationFor_of_min_none {df : DataFrame} {col : String} {cd : Column}
    (hget : dictGet df col = some cd) (hcm : colMin cd = none) :
    intRecommendationFor df col = none := by
  simp only [intRecommendationFor, hget]
  rw [hcm]

theorem intRecommendationFor_of_max_none {df : DataFrame} {col : String} {cd : Column}
    (hget : dictGet df col = some cd) (hcx : colMax cd = none) :
    intRecommendationFor df col = none := by
  simp only [intRecommendationFor, hget]
  rw [hcx]
  cases h : colMin cd <;> rfl

/-- C8 counterexample: it is not the case that every column in the integer
analyzer's output admits a width strictly smaller than its original width —
the checker over `dfInt32` (an `int32` column, which `select_dtypes` does
place in the integer partition, whose values fit no candidate below 32
bits) maps it to `int32`, its own width. -/
theorem c8_counterexample :
    ¬ (∀ (c : DataFrameChecker) (col : String) (t : Dtype) (cd : Column),
        c.columnsByType = separateDtypes c.df →
        (c.df.map Prod.fst).Nodup →
        dictGet (checkIfIntegerSizesCanBeReduced c) col = some t →
        dictGet c.df col = some cd →
        dtypeWidth t < dtypeWidth cd.dtype) := by
  intro h
  have h32 := h cInt32 "a" Dtype.int32
    ⟨Dtype.int32, [Value.int (-2147483648), Value.int 0]⟩ rfl
    (by decide) (by decide) (by decide)
  exact absurd h32 (by decide)

/-- C8 (amended): every column in the integer analyzer's output mapping is a
genuine integer-kind column mapped to the first (smallest) candidate width
whose range contains its exact minimum and maximum; the analyzer never
consults the column's original width, so the recommended width is strictly
smaller only when the original dtype is the `int64` baseline — an `int32`
column whose values fit no narrower candidate still receives an entry
recommending its own width. -/
theorem c8_smallest_fit_not_original_width (c : DataFrameChecker)
    (hcache : c.columnsByType = separateDtypes c.df)
    (hnodup : (c.df.map Prod.fst).Nodup)
    (col : String) (t : Dtype)
    (h : dictGet (checkIfIntegerSizesCanBeReduced c) col = some t) :
    ∃ cd mn mx, dictGet c.df col = some cd ∧ kindOf cd.dtype = some "int" ∧
      colMin cd = some mn ∧ colMax cd = some mx ∧
      some t =
        (if -128 ≤ mn ∧ mx ≤ 127 then some Dtype.int8
         else if -32768 ≤ mn ∧ mx ≤ 32767 then some Dtype.int16
         else if -2147483648 ≤ mn ∧ mx ≤ 2147483647 then some Dtype.int32
         else none) ∧
      (cd.dtype = Dtype.int64 → dtypeWidth t < dtypeWidth Dtype.int64) := by
  rw [checkInt_eq c hcache] at h
  obtain ⟨hmemCols, hIR⟩ := dictGet_recs_eq_some _ h
  obtain ⟨cd, hmem, hkind⟩ := mem_selectDtypes.mp hmemCols
  have hget : dictGet c.df col = some cd := dictGet_eq_some_of_mem hnodup hmem
  cases hcm : colMin cd with
  | none =>
    rw [intRecommendationFor_of_min_none hget hcm] at hIR
    exact Option.noConfusion hIR
  | some mn =>
    cases hcx : colMax cd with
    | none =>
      rw [intRecommendationFor_of_max_none hget hcx] at hIR
      exact Option.noConfusion hIR
    | some mx =>
      rw [intRecommendationFor_eq hnodup hmem hcm hcx] at hIR
      refine ⟨cd, mn, mx, hget, hkind, hcm, hcx, hIR.symm, fun _ => ?_⟩
      split_ifs at hIR with a1 a2 a3
      · injection hIR with hh
        exact hh ▸ (by decide : dtypeWidth Dtype.int8 < dtypeWidth Dtype.int64)
      · injection hIR with hh
        exact hh ▸ (by decide : dtypeWidth Dtype.int16 < dtypeWidth Dtype.int64)
      · injection hIR with hh
        exact hh ▸ (by decide : dtypeWidth Dtype.int32 < dtypeWidth Dtype.int64)

/-- Witness for the amended C8 at the `int32` counterexample checker. -/
theorem c8_witness :
    dictGet (checkIfIntegerSizesCanBeReduced cInt32) "a" = some Dtype.int32 ∧
    (∃ cd mn mx, dictGet cInt32.df "a" = some cd ∧ kindOf cd.dtype = some "int" ∧
      colMin cd = some mn ∧ colMax cd = some mx ∧
      some Dtype.int32 =
        (if -128 ≤ mn ∧ mx ≤ 127 then some Dtype.int8
         else if -32768 ≤ mn ∧ mx ≤ 32767 then some Dtype.int16
         else if -2147483648 ≤ mn ∧ mx ≤ 2147483647 then some Dtype.int32
         else none) ∧
      (cd.dtype = Dtype.int64 → dtypeWidth Dtype.int32 < dtypeWidth Dtype.int64)) :=
  ⟨by decide,
    c8_smallest_fit_not_original_width cInt32 rfl (by decide) "a" Dtype.int32 (by decide)⟩

/-- C9: The three failures of the system are pairwise distinguishable error
values (exception class together with message); materialization surfaces
exactly the two warnings, precisely in its two documented failure states,
and construction surfaces exactly the configuration error — nothing is
swallowed or converted. -/
theorem c9_distinguishable_errors :
    (notAnalysedWarning ≠ noImprovementsWarning ∧
      notAnalysedWarning ≠ invalidFloatSizeError ∧
      noImprovementsWarning ≠ invalidFloatSizeError) ∧
    (∀ (c : DataFrameChecker) (e : PyError),
      castDataframeToLowerMemoryVersion c = .error e →
      e = notAnalysedWarning ∨ e = noImprovementsWarning) ∧
    (∀ (c : DataFrameChecker),
      (∃ e, castDataframeToLowerMemoryVersion c = .error e) ↔
        (c.dataframeHasBeenAnalysed = false ∨ c.allPossibleImprovements = [])) ∧
    (∀ (df : DataFrame) (th fs : Int) (e : PyError),
      mkDataFrameChecker df th fs = .error e → e = invalidFloatSizeError) := by
  refine ⟨⟨by decide, by decide, by decide⟩, ?_, ?_, ?_⟩
  · intro c e h
    unfold castDataframeToLowerMemoryVersion at h
    split_ifs at h with h1 h2
    · exact Or.inl (Except.error.inj h).symm
    · exact Or.inr (Except.error.inj h).symm
  · intro c
    constructor
    · rintro ⟨e, h⟩
      unfold castDataframeToLowerMemoryVersion at h
      split_ifs at h with h1 h2
      · exact Or.inl h1
      · exact Or.inr h2
    · intro h
      unfold castDataframeToLowerMemoryVersion
      by_cases h1 : c.dataframeHasBeenAnalysed = false
      · exact ⟨notAnalysedWarning, by rw [if_pos h1]⟩
      · have h2 : c.allPossibleImprovements = [] := h.resolve_left h1
        exact ⟨noImprovementsWarning, by rw [if_neg h1, if_pos h2]⟩
  · intro df th fs e h
    unfold mkDataFrameChecker at h
    split_ifs at h with h1
    exact (Except.error.inj h).symm

/-- Witness for C9 at the unanalysed fixture checker. -/
theorem c9_witness :
    castDataframeToLowerMemoryVersion cWitInt = Except.error notAnalysedWarning ∧
    (notAnalysedWarning = notAnalysedWarning ∨ notAnalysedWarning = noImprovementsWarning) :=
  ⟨rfl, c9_distinguishable_errors.2.1 cWitInt notAnalysedWarning rfl⟩

/-- C10: Construction succeeds or fails solely according to the float width
— every integer categorical threshold, zero and negative included, is
accepted unvalidated; and under a non-positive threshold the string
analyzer recommends nothing, since each (non-empty) string column has at
least one distinct value. -/
theorem c10_threshold_unvalidated :
    (∀ (df : DataFrame) (th fs : Int),
      (mkDataFrameChecker df th fs).isOk = true ↔ (fs = 16 ∨ fs = 32 ∨ fs = 64)) ∧
    (∀ (c : DataFrameChecker),
      c.columnsByType = separateDtypes c.df →
      (c.df.map Prod.fst).Nodup →
      c.categoricalThreshold ≤ 0 →
      (∀ col cd, (col, cd) ∈ c.df → kindOf cd.dtype = some "object" → cd.values ≠ []) →
      checkIfStringsCouldBeCategorical c = []) := by
  constructor
  · intro df th fs
    unfold mkDataFrameChecker
    by_cases h : fs ∈ ([16, 32, 64] : List Int)
    · rw [if_neg (not_not_intro h)]
      constructor
      · intro _
        simpa [List.mem_cons] using h
      · intro _
        rfl
    · rw [if_pos h]
      constructor
      · intro hh
        exact absurd hh (by decide)
      · intro hv
        exact absurd (show fs ∈ ([16, 32, 64] : List Int) by
          rcases hv with h' | h' | h' <;> simp [h']) h
  · intro c hcache hnodup hth hne
    rw [checkStrings_eq c hcache]
    apply List.filterMap_eq_nil_iff.mpr
    intro col hcol
    obtain ⟨cd, hmem, hkind⟩ := mem_selectDtypes.mp hcol
    have hget := dictGet_eq_some_of_mem hnodup hmem
    have h1 : cd.values ≠ [] := hne col cd hmem hkind
    have h2 : cd.values.dedup ≠ [] := fun hd => h1 ((List.dedup_eq_nil cd.values).mp hd)
    have h3 : 0 < nunique cd := List.length_pos.mpr h2
    simp only [stringRecommendationFor, hget]
    rw [if_neg (show ¬((nunique cd : Int) ≤ c.categoricalThreshold) by omega)]
    rfl

/-- Witness for C10: a negative threshold is accepted by the constructor
and yields no categorical recommendation on a non-empty string column. -/
theorem c10_witness :
    (mkDataFrameChecker [] (-5) 16).isOk = true ∧
    cWitNeg.categoricalThreshold ≤ 0 ∧
    checkIfStringsCouldBeCategorical cWitNeg = [] :=
  ⟨(c10_threshold_unvalidated.1 [] (-5) 16).mpr (Or.inl rfl),
   by decide,
   c10_threshold_unvalidated.2 cWitNeg rfl (by decide) (by decide)
     (fun col cd hm hk => by
       simp only [cWitNeg, dfWitStr, List.mem_singleton] at hm
       cases hm
       decide)⟩

end PandasDtypeEfficiency
